import Mathlib

/-!
# Verification of the BufferMgmt packet-buffer allocator

Shallow embedding of the BufferMgmt repository (a zero-copy, size-classed,
NUMA-aware packet-buffer allocator) and proofs about it.

Embedded source files:
* `src/packet_buffer.cpp` / `include/packet_buffer.hpp`: the `PacketBuffer`
  handle (window arithmetic, reference counting, release protocol).
* `src/pool_manager.cpp` / `include/pool_manager.hpp`: the `PoolManager`
  registry (configuration, best-fit pool lookup with global fallback,
  allocation entry point).
* `include/buffer_metadata.hpp`: the `BufferMetadata` lifecycle-state tag.

The pool implementation (`packet_buffer_pool.cpp`) is absent from the
source tree — only its header and tests exist — so the pool's
`allocate_buffer` behaviour and its constructor are modelled from the
spec where needed; those definitions say so in their doc comments.

Modelling conventions: raw pointers become `Nat` addresses; `size_t`
arithmetic on in-bounds pointers becomes `Nat` arithmetic (the window
invariant, proved below, keeps every subtraction non-truncating exactly
where the C++ pointer difference is well defined); the `int` reference
count becomes `Int`; nullable pointers become `Option`/`Bool` fields.
-/

namespace BufferMgmt

/-- `BufferMetadata::BufferState` from `include/buffer_metadata.hpp`. -/
inductive BufferState where
  | Free
  | Allocated
  | InUse
  | Released
deriving DecidableEq, Repr

/-- The `PacketBuffer` control block, from `include/packet_buffer.hpp`.
Pointers are modelled as `Nat` addresses; `metadata` is `none` when the
C++ `metadata_` pointer is null, otherwise it carries the record's
lifecycle state (the only record field the buffer code touches);
`has_owner` is whether `owning_pool_` is non-null; `next` holds the
address of the chained buffer, if any. -/
structure PacketBuffer where
  buffer_start : Nat
  total_allocated_size : Nat
  data_ptr : Nat
  data_len : Nat
  headroom : Nat
  tailroom : Nat
  ref_count : Int
  next : Option Nat
  metadata : Option BufferState
  numa_node : Int
  has_owner : Bool
deriving DecidableEq, Repr

namespace PacketBuffer

/-- The `PacketBuffer` constructor (`packet_buffer.cpp` lines 6-33):
`buffer_start_ = data_area_start`, `total_allocated_size_ = headroom +
payload capacity + tailroom`, `data_ptr_ = data_area_start + headroom`,
`data_len_ = 0`, `ref_count_ = 0`, `next_ = nullptr`. -/
def mk_buffer (data_area_start payload_capacity configured_headroom
    configured_tailroom : Nat) (metadata_state : Option BufferState)
    (numa_node : Int) (has_owner : Bool) : PacketBuffer :=
  { buffer_start := data_area_start
    total_allocated_size :=
      configured_headroom + payload_capacity + configured_tailroom
    data_ptr := data_area_start + configured_headroom
    data_len := 0
    headroom := configured_headroom
    tailroom := configured_tailroom
    ref_count := 0
    next := none
    metadata := metadata_state
    numa_node := numa_node
    has_owner := has_owner }

/-- `PacketBuffer::capacity` (`packet_buffer.cpp` lines 76-80):
`total_allocated_size_ - headroom_ - tailroom_`. -/
def capacity (b : PacketBuffer) : Nat :=
  b.total_allocated_size - b.headroom - b.tailroom

/-- `PacketBuffer::set_data_len` (`packet_buffer.cpp` lines 86-97): if
`len` exceeds `(buffer_start_ + total_allocated_size_) - data_ptr_`,
truncate `data_len_` to that bound, else store `len`. -/
def set_data_len (b : PacketBuffer) (len : Nat) : PacketBuffer :=
  if len > (b.buffer_start + b.total_allocated_size) - b.data_ptr then
    { b with data_len := (b.buffer_start + b.total_allocated_size) - b.data_ptr }
  else
    { b with data_len := len }

/-- `PacketBuffer::reserve_headroom` (`packet_buffer.cpp` lines 111-119):
fails (returns null) when `len` exceeds the dynamic headroom
`data_ptr_ - buffer_start_`; otherwise moves `data_ptr_` back by `len`,
grows `data_len_` by `len` and returns the new `data_ptr_`. The result
pairs the returned pointer (`none` for null) with the updated buffer. -/
def reserve_headroom (b : PacketBuffer) (len : Nat) :
    Option Nat × PacketBuffer :=
  if len > b.data_ptr - b.buffer_start then
    (none, b)
  else
    (some (b.data_ptr - len),
     { b with data_ptr := b.data_ptr - len, data_len := b.data_len + len })

/-- `PacketBuffer::reserve_tailroom` (`packet_buffer.cpp` lines 124-135):
fails when `len` exceeds the dynamic tailroom
`(buffer_start_ + total_allocated_size_) - (data_ptr_ + data_len_)`;
otherwise grows `data_len_` by `len` and returns the old window end. -/
def reserve_tailroom (b : PacketBuffer) (len : Nat) :
    Option Nat × PacketBuffer :=
  if len > (b.buffer_start + b.total_allocated_size) - (b.data_ptr + b.data_len)
  then (none, b)
  else (some (b.data_ptr + b.data_len), { b with data_len := b.data_len + len })

/-- `PacketBuffer::release` (`packet_buffer.cpp` lines 49-66):
`fetch_sub(1)` on `ref_count_`; if the pre-decrement value was 1 and
`owning_pool_` is non-null, reset the window
(`data_ptr_ = buffer_start_ + headroom_`, `data_len_ = 0`,
`next_ = nullptr`), set the metadata state to `Released` when the
metadata pointer is non-null, and call `owning_pool_->deallocate_buffer`.
The `Bool` in the result records whether `deallocate_buffer` was
invoked. -/
def release (b : PacketBuffer) : PacketBuffer × Bool :=
  let old := b.ref_count
  let b1 : PacketBuffer := { b with ref_count := old - 1 }
  if old = 1 then
    if b1.has_owner then
      ({ b1 with
          data_ptr := b1.buffer_start + b1.headroom
          data_len := 0
          next := none
          metadata :=
            match b1.metadata with
            | none => none
            | some _ => some BufferState.Released }, true)
    else (b1, false)
  else (b1, false)

end PacketBuffer

/-- The `PacketBufferPool` state, from `include/packet_buffer_pool.hpp`:
configuration fields, the free list (of whole buffer units, since each
unit's control block lives inside the pool's arena) and the statistics
counters. -/
structure PacketBufferPool where
  buffer_payload_size : Nat
  initial_pool_count : Nat
  numa_node : Int
  headroom_size : Nat
  tailroom_size : Nat
  free_list : List PacketBuffer
  alloc_count : Nat
  dealloc_count : Nat
deriving DecidableEq, Repr

namespace PacketBufferPool

/-- Modelled from the spec: `packet_buffer_pool.cpp` is absent from the
source tree (only `include/packet_buffer_pool.hpp` and its tests exist).
Spec section 4.2: construction builds every unit in place in one arena at
fixed strides, each with `ref_count` 0, lifecycle state "free" and the
window reset, and inserts all units into the free list. Each unit's data
area starts at its stride offset within the arena (arena base taken as
address 0). -/
def mk_pool (buffer_payload_size initial_count : Nat) (numa_node : Int)
    (headroom tailroom : Nat) : PacketBufferPool :=
  { buffer_payload_size := buffer_payload_size
    initial_pool_count := initial_count
    numa_node := numa_node
    headroom_size := headroom
    tailroom_size := tailroom
    free_list :=
      (List.range initial_count).map fun i =>
        PacketBuffer.mk_buffer
          (i * (headroom + buffer_payload_size + tailroom))
          buffer_payload_size headroom tailroom
          (some BufferState.Free) numa_node true
    alloc_count := 0
    dealloc_count := 0 }

/-- Modelled from the spec: `packet_buffer_pool.cpp` is absent from the
source tree. Spec section 4.2, `allocate_buffer()`: pop one unit from the
free list (which unit is don't-care; this model pops the front), set its
`ref_count` to 1 and lifecycle state to "allocated", reset the window to
`(region_start + headroom, 0)`, increment the allocation counter and
return the unit; on an empty free list return null and leave the counter
alone. -/
def allocate_buffer (p : PacketBufferPool) :
    Option PacketBuffer × PacketBufferPool :=
  match p.free_list with
  | [] => (none, p)
  | b :: rest =>
      (some { b with
          ref_count := 1
          metadata :=
            match b.metadata with
            | none => none
            | some _ => some BufferState.Allocated
          data_ptr := b.buffer_start + b.headroom
          data_len := 0
          next := none },
       { p with free_list := rest, alloc_count := p.alloc_count + 1 })

end PacketBufferPool

/-- `PoolConfig` from `include/pool_manager.hpp`. -/
structure PoolConfig where
  buffer_size : Nat
  initial_count : Nat
  headroom : Nat := 64
  tailroom : Nat := 0
deriving DecidableEq, Repr

/-- The inner `std::map<size_t, unique_ptr<PacketBufferPool>>` of
`PoolManager::numa_pools_`, as an association list sorted strictly
ascending by size class (the map's iteration order). -/
abbrev SizePoolMap := List (Nat × PacketBufferPool)

/-- `PoolManager::numa_pools_`: the outer
`std::map<int, std::map<size_t, ...>>` keyed by NUMA node, as an
association list (outer ordering is irrelevant to every lookup). -/
abbrev ManagerState := List (Int × SizePoolMap)

namespace PoolManager

/-- `std::map::lower_bound` on a size-class map iterated in ascending key
order: the first entry whose key is `≥ k`. -/
def lowerBound (m : SizePoolMap) (k : Nat) : Option (Nat × PacketBufferPool) :=
  match m with
  | [] => none
  | e :: rest => if k ≤ e.1 then some e else lowerBound rest k

/-- `numa_pools_.find(node)` on the outer map. -/
def lookupAff (st : ManagerState) (aff : Int) : Option SizePoolMap :=
  match st with
  | [] => none
  | e :: rest => if e.1 = aff then some e.2 else lookupAff rest aff

/-- Store `m` as the size-class map of `aff`, replacing the existing
entry or appending a new one (the effect of `numa_pools_[aff]` mutated
in place). -/
def setAff (st : ManagerState) (aff : Int) (m : SizePoolMap) : ManagerState :=
  match st with
  | [] => [(aff, m)]
  | e :: rest => if e.1 = aff then (aff, m) :: rest else e :: setAff rest aff m

/-- `size_to_pool_map.count(k)` (keys are unique). -/
def containsKey (m : SizePoolMap) (k : Nat) : Bool :=
  match m with
  | [] => false
  | e :: rest => if e.1 = k then true else containsKey rest k

/-- Lookup of a size class in the inner map. -/
def lookupKey (m : SizePoolMap) (k : Nat) : Option PacketBufferPool :=
  match m with
  | [] => none
  | e :: rest => if e.1 = k then some e.2 else lookupKey rest k

/-- `pools_for_specific_numa[k] = pool` for a key not yet present:
insertion keeping the map sorted ascending by key. -/
def insertSorted (m : SizePoolMap) (k : Nat) (p : PacketBufferPool) :
    SizePoolMap :=
  match m with
  | [] => [(k, p)]
  | e :: rest =>
      if k < e.1 then (k, p) :: e :: rest else e :: insertSorted rest k p

/-- `PoolManager::find_pool` (`pool_manager.cpp` lines 65-90): look up the
requested node's map and take `lower_bound(desired_payload_size)`; if the
node has no map or no pool of size `≥ desired`, and the node is not `-1`,
retry against node `-1`'s map; otherwise null. -/
def find_pool (st : ManagerState) (desired_payload_size : Nat)
    (numa_node : Int) : Option PacketBufferPool :=
  let fromNode :=
    match lookupAff st numa_node with
    | some m =>
        match lowerBound m desired_payload_size with
        | some e => some e.2
        | none => none
    | none => none
  match fromNode with
  | some p => some p
  | none =>
      if numa_node ≠ -1 then
        match lookupAff st (-1) with
        | some m =>
            match lowerBound m desired_payload_size with
            | some e => some e.2
            | none => none
        | none => none
      else none

/-- `PoolManager::allocate` (`pool_manager.cpp` lines 92-112): find a pool
via `find_pool`; if one is found, return whatever its single
`allocate_buffer()` call yields (null on exhaustion, with no retry
against any other pool); with no pool found, return null. -/
def allocate (st : ManagerState) (desired_payload_size : Nat)
    (numa_node : Int) : Option PacketBuffer :=
  match find_pool st desired_payload_size numa_node with
  | some p => (p.allocate_buffer).1
  | none => none

/-- The body of the loop of `PoolManager::configure_pools_for_numa_node`
(`pool_manager.cpp` lines 29-56) acting on the node's size-class map:
a config whose size class is already present is skipped; otherwise the
pool is constructed and stored, and a construction failure stops the loop
returning `false`. Construction is abstracted as `construct` returning
`none` on failure (`std::bad_alloc` from the arena allocation, an
environment event): the pool constructor itself is not in the source
tree. -/
def configLoop (construct : PoolConfig → Int → Option PacketBufferPool)
    (numa_node : Int) : List PoolConfig → SizePoolMap → SizePoolMap × Bool
  | [], m => (m, true)
  | c :: rest, m =>
      if containsKey m c.buffer_size then configLoop construct numa_node rest m
      else
        match construct c numa_node with
        | none => (m, false)
        | some p =>
            configLoop construct numa_node rest (insertSorted m c.buffer_size p)

/-- `PoolManager::configure_pools_for_numa_node` (`pool_manager.cpp`
lines 24-58): `numa_pools_[numa_node]` materialises the node's (possibly
empty) map, then the loop over `configs` runs on it; the call returns
`false` as soon as one pool construction fails (pools registered before
the failure stay registered) and `true` otherwise. -/
def configure_pools_for_numa_node
    (construct : PoolConfig → Int → Option PacketBufferPool)
    (st : ManagerState) (numa_node : Int) (configs : List PoolConfig) :
    ManagerState × Bool :=
  let m := (lookupAff st numa_node).getD []
  let r := configLoop construct numa_node configs m
  (setAff st numa_node r.1, r.2)

/-- `PoolManager::add_pool` (`pool_manager.cpp` lines 60-62). -/
def add_pool (construct : PoolConfig → Int → Option PacketBufferPool)
    (st : ManagerState) (numa_node : Int) (config : PoolConfig) :
    ManagerState × Bool :=
  configure_pools_for_numa_node construct st numa_node [config]

/-- The pool constructor that always obtains its arena: `mk_pool` wrapped
as a `construct` argument for `configLoop`. -/
def constructOk (c : PoolConfig) (numa_node : Int) : Option PacketBufferPool :=
  some (PacketBufferPool.mk_pool c.buffer_size c.initial_count numa_node
    c.headroom c.tailroom)

end PoolManager

/-! ## Derived notions used by the statements -/

/-- One public window operation of `PacketBuffer`, with its argument. -/
inductive WindowOp where
  | setLen (n : Nat)
  | resHead (n : Nat)
  | resTail (n : Nat)
deriving DecidableEq, Repr

/-- Run one window operation on a buffer (discarding the returned
pointer of the reserve operations). -/
def applyOp (b : PacketBuffer) (op : WindowOp) : PacketBuffer :=
  match op with
  | WindowOp.setLen n => b.set_data_len n
  | WindowOp.resHead n => (b.reserve_headroom n).2
  | WindowOp.resTail n => (b.reserve_tailroom n).2

/-- Run a sequence of window operations. -/
def applyOps (b : PacketBuffer) (ops : List WindowOp) : PacketBuffer :=
  ops.foldl applyOp b

/-- The window invariant of spec section 3: `region_start ≤ data_ptr`
and `data_ptr + data_len ≤ region_start + region_size`. -/
def windowInv (b : PacketBuffer) : Prop :=
  b.buffer_start ≤ b.data_ptr
    ∧ b.data_ptr + b.data_len ≤ b.buffer_start + b.total_allocated_size

namespace PoolManager

/-- The entry of minimal key in a non-empty list (first minimum). -/
def minByKey (l : List (Nat × PacketBufferPool)) :
    Option (Nat × PacketBufferPool) :=
  match l with
  | [] => none
  | e :: rest =>
      some (rest.foldl (fun a x => if x.1 < a.1 then x else a) e)

/-- The spec's selection rule, stated in the spec's own words: among the
pools of one affinity tier, "choose the one with the smallest size class
that is ≥ requested_size". -/
def bestFitSpec (m : SizePoolMap) (requested : Nat) :
    Option (Nat × PacketBufferPool) :=
  minByKey (m.filter fun e => requested ≤ e.1)

/-- The spec's pool-selection policy for `allocate` (spec section 4.3),
stated in the spec's words: best-fit ascending among the requested
affinity's pools; if none and the affinity is not the global `-1` tier,
the same rule against the global tier's pools; else no pool. -/
def find_pool_spec (st : ManagerState) (requested : Nat) (affinity : Int) :
    Option PacketBufferPool :=
  match bestFitSpec ((lookupAff st affinity).getD []) requested with
  | some e => some e.2
  | none =>
      if affinity ≠ -1 then
        match bestFitSpec ((lookupAff st (-1)).getD []) requested with
        | some e => some e.2
        | none => none
      else none

/-- A size-class map is sorted strictly ascending by key — the iteration
order `std::map` guarantees and `insertSorted` maintains. -/
def sortedByKey (m : SizePoolMap) : Prop :=
  List.Pairwise (fun a b => a.1 < b.1) m

instance sortedByKeyDecidable (m : SizePoolMap) : Decidable (sortedByKey m) :=
  inferInstanceAs (Decidable (List.Pairwise
    (fun a b : Nat × PacketBufferPool => a.1 < b.1) m))

end PoolManager

/-! ## Concrete states used by the scenario claims and the witnesses -/

/-- The registry of the spec's size-class-fallback scenario: pools of
size classes 128, 512 and 1024 on NUMA node 0 and a 1024 pool on the
global `-1` tier, each with one unit and the default headroom 64,
tailroom 0, built through `configure_pools_for_numa_node`. -/
def scenarioState : ManagerState :=
  let r1 := PoolManager.configure_pools_for_numa_node PoolManager.constructOk
    [] 0 [⟨128, 1, 64, 0⟩, ⟨512, 1, 64, 0⟩, ⟨1024, 1, 64, 0⟩]
  let r2 := PoolManager.configure_pools_for_numa_node PoolManager.constructOk
    r1.1 (-1) [⟨1024, 1, 64, 0⟩]
  r2.1

/-- A freshly allocated buffer from a pool configured with payload 128,
headroom 64 and tailroom 16 (the configuration of the repository's own
test `PacketBufferTest.HeadroomTailroomOperations`): window at
`region_start + 64`, length 0. -/
def freshTailroom16 : PacketBuffer :=
  PacketBuffer.mk_buffer 0 128 64 16 (some BufferState.Allocated) 0 true

/-- A live buffer holding the last reference: one retained unit of a
payload-128 pool. -/
def lastRefBuffer : PacketBuffer :=
  { PacketBuffer.mk_buffer 0 128 64 16 (some BufferState.Allocated) 0 true
      with ref_count := 1 }

/-- A registry with an exhausted pool: one 256-byte pool on node 0 whose
single unit count is 0, so its free list is empty. -/
def exhaustedState : ManagerState :=
  (PoolManager.add_pool PoolManager.constructOk [] 0 ⟨256, 0, 64, 0⟩).1

/-- A small registry with two size classes on node 0 and one on the
global tier, each inner map sorted ascending by size class. -/
def twoTierState : ManagerState :=
  [(0, [(128, PacketBufferPool.mk_pool 128 2 0 64 0),
        (512, PacketBufferPool.mk_pool 512 2 0 64 0)]),
   (-1, [(1024, PacketBufferPool.mk_pool 1024 2 (-1) 64 0)])]

/-- A registry with a single 128-byte pool of one unit on node 0. -/
def onePoolState : ManagerState :=
  (PoolManager.add_pool PoolManager.constructOk [] 0 ⟨128, 1, 64, 0⟩).1

/-! ## Helper lemmas -/

/-- Every single window operation preserves the window invariant. -/
theorem windowInv_applyOp (b : PacketBuffer) (op : WindowOp)
    (h : windowInv b) : windowInv (applyOp b op) := by
  obtain ⟨h1, h2⟩ := h
  cases op <;>
    simp only [applyOp, PacketBuffer.set_data_len,
      PacketBuffer.reserve_headroom, PacketBuffer.reserve_tailroom,
      windowInv] <;>
    split <;> constructor <;> simp <;> omega

/-- Every sequence of window operations preserves the window
invariant. -/
theorem windowInv_applyOps (ops : List WindowOp) (b : PacketBuffer)
    (h : windowInv b) : windowInv (applyOps b ops) := by
  induction ops generalizing b with
  | nil => exact h
  | cons op rest ih => exact ih (applyOp b op) (windowInv_applyOp b op h)

/-! ## Claims -/

/-- C1, counterexample: in the scenario registry (128/512/1024 on node 0,
1024 on the global tier), `allocate(600, 0)` returns a buffer whose
affinity is node 0 — node 0's own 1024 pool satisfies
`lower_bound(600)` — not the global `-1` affinity the claim demands. -/
theorem bufferMgmt_c1_counterexample :
    (PoolManager.allocate scenarioState 600 0).map (fun b => b.numa_node)
      = some 0
    ∧ some (0 : Int) ≠ some (-1 : Int) := by decide

/-- C1, amended: in the scenario registry, `allocate(100, 0)` yields a
buffer of capacity ≥ 128 with node-0 affinity; `allocate(600, 0)` yields
a buffer of capacity ≥ 1024, taken from node 0's own 1024 pool with
node-0 affinity (not from the global tier); and `allocate(2048, 0)`
yields no buffer. -/
theorem bufferMgmt_c1_amended_scenario :
    ((PoolManager.allocate scenarioState 100 0).any
      (fun b => 128 ≤ b.capacity && b.numa_node == 0)) = true
    ∧ ((PoolManager.allocate scenarioState 600 0).any
      (fun b => 1024 ≤ b.capacity && b.numa_node == 0)) = true
    ∧ PoolManager.allocate scenarioState 2048 0 = none := by decide

/-- C2, evaluation at the failing input: on a freshly allocated buffer of
capacity 128 with configured tailroom 16 (the repository's own test
configuration), `set_data_len(capacity()+1)` leaves `data_len() = 129`,
exceeding the capacity — the code clamps at the region end
(capacity + tailroom), not at the capacity, contradicting the claim and
the repository's own test `packet_buffer_test.cpp:166`. -/
theorem bufferMgmt_c2_code_bug_eval :
    (freshTailroom16.set_data_len (freshTailroom16.capacity + 1)).data_len
        = freshTailroom16.capacity + 1
    ∧ freshTailroom16.capacity = 128 := by decide

/-- C3: when `release()` runs with pre-decrement reference count exactly
1 on a buffer with an owning pool and an attached record, it resets the
window to `(region_start + configured headroom, 0)`, clears `next`, sets
the record's lifecycle state to the terminal `Released` tag, and invokes
`owning_pool->deallocate_buffer` (the `Bool` component of the model's
result). -/
theorem bufferMgmt_c3_release_last_ref (b : PacketBuffer)
    (h1 : b.ref_count = 1) (h2 : b.has_owner = true)
    (h3 : b.metadata.isSome = true) :
    (b.release).1.data_ptr = b.buffer_start + b.headroom
    ∧ (b.release).1.data_len = 0
    ∧ (b.release).1.next = none
    ∧ (b.release).1.metadata = some BufferState.Released
    ∧ (b.release).2 = true := by
  obtain ⟨s, hs⟩ := Option.isSome_iff_exists.mp h3
  simp [PacketBuffer.release, h1, h2, hs]

/-- C3 witness at a concrete buffer holding the last reference. -/
theorem bufferMgmt_c3_witness :
    (lastRefBuffer.release).1.data_ptr
        = lastRefBuffer.buffer_start + lastRefBuffer.headroom
    ∧ (lastRefBuffer.release).1.data_len = 0
    ∧ (lastRefBuffer.release).1.next = none
    ∧ (lastRefBuffer.release).1.metadata = some BufferState.Released
    ∧ (lastRefBuffer.release).2 = true :=
  bufferMgmt_c3_release_last_ref lastRefBuffer (by decide) (by decide)
    (by decide)

/-- C4: starting from the initial window state of the constructor, every
sequence of the public window operations `set_data_len`,
`reserve_headroom` and `reserve_tailroom`, with any arguments, keeps the
window invariant `region_start ≤ data_ptr ∧ data_ptr + data_len ≤
region_start + region_size` (quantifying over all sequences covers the
state after every intermediate operation). -/
theorem bufferMgmt_c4_window_invariant (start payload hr tr : Nat)
    (md : Option BufferState) (nn : Int) (ow : Bool)
    (ops : List WindowOp) :
    windowInv (applyOps (PacketBuffer.mk_buffer start payload hr tr md nn ow)
      ops) := by
  refine windowInv_applyOps ops _ ⟨?_, ?_⟩
  · simp [PacketBuffer.mk_buffer]
  · simp only [PacketBuffer.mk_buffer]
    omega

/-- C6: `reserve_headroom(n)` succeeds exactly when `n` is at most the
dynamic headroom `data_ptr - region_start`; on success it returns the new
`data_ptr`, which sits exactly `n` below the old one, and grows
`data_len` by `n` (touching nothing else); on failure it returns null and
leaves the whole buffer state unchanged. -/
theorem bufferMgmt_c6_reserve_headroom (b : PacketBuffer) (n : Nat) :
    ((b.reserve_headroom n).1.isSome = true
        ↔ n ≤ b.data_ptr - b.buffer_start)
    ∧ (n ≤ b.data_ptr - b.buffer_start →
        (b.reserve_headroom n).1 = some ((b.reserve_headroom n).2.data_ptr)
        ∧ (b.reserve_headroom n).2.data_ptr + n = b.data_ptr
        ∧ (b.reserve_headroom n).2
            = { b with data_ptr := b.data_ptr - n,
                       data_len := b.data_len + n })
    ∧ (b.data_ptr - b.buffer_start < n →
        (b.reserve_headroom n).1 = none ∧ (b.reserve_headroom n).2 = b) := by
  unfold PacketBuffer.reserve_headroom
  split <;> rename_i h <;> refine ⟨?_, ?_, ?_⟩ <;> simp <;> omega

/-- C6 witness at a concrete buffer and reservation sizes on both sides
of the dynamic-headroom bound. -/
theorem bufferMgmt_c6_witness :
    (freshTailroom16.reserve_headroom 10).1
        = some ((freshTailroom16.reserve_headroom 10).2.data_ptr)
    ∧ (freshTailroom16.reserve_headroom 10).2.data_ptr + 10
        = freshTailroom16.data_ptr
    ∧ (freshTailroom16.reserve_headroom 100).1 = none
    ∧ (freshTailroom16.reserve_headroom 100).2 = freshTailroom16 := by
  have hs := (bufferMgmt_c6_reserve_headroom freshTailroom16 10).2.1
    (by decide)
  have hf := (bufferMgmt_c6_reserve_headroom freshTailroom16 100).2.2
    (by decide)
  exact ⟨hs.1, hs.2.1, hf.1, hf.2⟩

/-- C7: `set_data_len(n)` stores `n` when `data_ptr + n` stays within the
region end, otherwise stores exactly the largest length that fits,
`(region_start + region_size) - data_ptr`; it has no failure path and
changes no field other than `data_len`. The hypothesis is the
`data_ptr ≤ region end` half of the window invariant, which holds in
every reachable buffer state. -/
theorem bufferMgmt_c7_set_data_len (b : PacketBuffer) (n : Nat)
    (hb : b.data_ptr ≤ b.buffer_start + b.total_allocated_size) :
    (b.data_ptr + n ≤ b.buffer_start + b.total_allocated_size →
      (b.set_data_len n).data_len = n)
    ∧ (b.buffer_start + b.total_allocated_size < b.data_ptr + n →
      (b.set_data_len n).data_len
        = (b.buffer_start + b.total_allocated_size) - b.data_ptr)
    ∧ (b.set_data_len n)
        = { b with data_len := (b.set_data_len n).data_len } := by
  unfold PacketBuffer.set_data_len
  split <;> rename_i h <;> refine ⟨?_, ?_, ?_⟩ <;> simp <;> omega

/-- C7 witness at a concrete buffer, with one in-range and one clamped
length. -/
theorem bufferMgmt_c7_witness :
    (freshTailroom16.set_data_len 100).data_len = 100
    ∧ (freshTailroom16.set_data_len 200).data_len
        = (freshTailroom16.buffer_start
            + freshTailroom16.total_allocated_size)
          - freshTailroom16.data_ptr := by
  have hin := (bufferMgmt_c7_set_data_len freshTailroom16 100
    (by decide)).1 (by decide)
  have hover := (bufferMgmt_c7_set_data_len freshTailroom16 200
    (by decide)).2.1 (by decide)
  exact ⟨hin, hover⟩

/-- Folding the keep-the-smaller-key step over a list none of whose keys
beat the accumulator leaves the accumulator. -/
theorem foldl_min_fixed (a : Nat × PacketBufferPool)
    (l : List (Nat × PacketBufferPool)) (h : ∀ x ∈ l, ¬ x.1 < a.1) :
    l.foldl (fun acc x => if x.1 < acc.1 then x else acc) a = a := by
  induction l with
  | nil => rfl
  | cons x xs ih =>
      simp only [List.foldl_cons]
      rw [if_neg (h x (List.mem_cons_self x xs))]
      exact ih fun y hy => h y (List.mem_cons_of_mem x hy)

/-- On a size-class map sorted strictly ascending by key,
`std::map::lower_bound` returns exactly the spec's best-fit choice: the
entry of smallest key that is `≥` the request. -/
theorem lowerBound_eq_bestFitSpec (m : SizePoolMap) (k : Nat)
    (hs : PoolManager.sortedByKey m) :
    PoolManager.lowerBound m k = PoolManager.bestFitSpec m k := by
  induction m with
  | nil => rfl
  | cons e rest ih =>
      rw [PoolManager.sortedByKey, List.pairwise_cons] at hs
      obtain ⟨hhead, htail⟩ := hs
      by_cases hk : k ≤ e.1
      · have hfix :
            ((rest.filter fun x => decide (k ≤ x.1)).foldl
              (fun acc x => if x.1 < acc.1 then x else acc) e) = e := by
          refine foldl_min_fixed e _ fun x hx => ?_
          have hxr : x ∈ rest := List.mem_of_mem_filter hx
          have := hhead x hxr
          omega
        simp [PoolManager.lowerBound, PoolManager.bestFitSpec,
          PoolManager.minByKey, List.filter_cons, hk, hfix]
      · have hind := ih htail
        simp only [PoolManager.lowerBound, PoolManager.bestFitSpec,
          PoolManager.minByKey, List.filter_cons] at hind ⊢
        simpa [hk] using hind

/-- A successful affinity lookup names an entry of the registry. -/
theorem lookupAff_mem (st : ManagerState) (aff : Int) (m : SizePoolMap)
    (h : PoolManager.lookupAff st aff = some m) : (aff, m) ∈ st := by
  induction st with
  | nil => simp [PoolManager.lookupAff] at h
  | cons e rest ih =>
      obtain ⟨a, im⟩ := e
      unfold PoolManager.lookupAff at h
      by_cases he : a = aff
      · subst he
        simp at h
        subst h
        exact List.mem_cons_self _ _
      · simp [he] at h
        exact List.mem_cons_of_mem _ (ih h)

/-- C5: on every registry whose size-class maps are sorted strictly
ascending by key (the `std::map` ordering), `find_pool` implements the
spec's selection policy exactly: the smallest size class `≥` the request
among the requested affinity's pools, then — when that affinity is not
the global `-1` tier — the same rule over the global tier's pools, else
no pool. `allocate` returns the empty result precisely when this
selection is empty or the selected pool's single allocation fails. -/
theorem bufferMgmt_c5_best_fit_policy (st : ManagerState) (size : Nat)
    (node : Int) (hs : ∀ e ∈ st, PoolManager.sortedByKey e.2) :
    PoolManager.find_pool st size node
      = PoolManager.find_pool_spec st size node := by
  have hsort : ∀ aff : Int,
      PoolManager.sortedByKey ((PoolManager.lookupAff st aff).getD []) := by
    intro aff
    cases hla : PoolManager.lookupAff st aff with
    | none => simp [PoolManager.sortedByKey]
    | some m => simpa using hs (aff, m) (lookupAff_mem st aff m hla)
  have hnode := hsort node
  have hglob := hsort (-1)
  unfold PoolManager.find_pool PoolManager.find_pool_spec
  cases hn : PoolManager.lookupAff st node with
  | none =>
      simp only [hn, Option.getD_none]
      cases hg : PoolManager.lookupAff st (-1) with
      | none =>
          simp [hg, PoolManager.bestFitSpec, PoolManager.minByKey]
      | some mg =>
          rw [hg] at hglob
          simp only [Option.getD_some] at hglob
          have hlbg := lowerBound_eq_bestFitSpec mg size hglob
          simp only [hg, Option.getD_some, hlbg]
          cases hbg : PoolManager.bestFitSpec mg size with
          | some e =>
              simp [hbg, PoolManager.bestFitSpec, PoolManager.minByKey]
          | none =>
              simp [hbg, PoolManager.bestFitSpec, PoolManager.minByKey]
  | some m =>
      rw [hn] at hnode
      simp only [Option.getD_some] at hnode
      have hlb := lowerBound_eq_bestFitSpec m size hnode
      cases hbf : PoolManager.bestFitSpec m size with
      | some e => simp [hn, hlb, hbf]
      | none =>
          simp only [hn, Option.getD_some, hlb, hbf]
          cases hg : PoolManager.lookupAff st (-1) with
          | none =>
              simp [hg, PoolManager.bestFitSpec, PoolManager.minByKey]
          | some mg =>
              rw [hg] at hglob
              simp only [Option.getD_some] at hglob
              have hlbg := lowerBound_eq_bestFitSpec mg size hglob
              cases hbg : PoolManager.bestFitSpec mg size with
              | some e => simp [hg, hlbg, hbg]
              | none =>
                  simp [hg, hlbg, hbg, PoolManager.bestFitSpec,
                    PoolManager.minByKey]

/-- C5 witness on a concrete sorted two-tier registry: requests that hit
the node tier, fall back to the global tier, and miss entirely. -/
theorem bufferMgmt_c5_witness :
    PoolManager.find_pool twoTierState 600 0
      = PoolManager.find_pool_spec twoTierState 600 0 :=
  bufferMgmt_c5_best_fit_policy twoTierState 600 0 (by decide)

/-- C8: when `PoolManager::allocate` finds a matching pool whose free
list is exhausted, it returns the same null result as the no-pool case —
the single `allocate_buffer()` call fails and no other size class or
affinity is retried. -/
theorem bufferMgmt_c8_exhaustion (st : ManagerState) (size : Nat)
    (node : Int) (p : PacketBufferPool)
    (hfind : PoolManager.find_pool st size node = some p)
    (hempty : p.free_list = []) :
    PoolManager.allocate st size node = none := by
  simp [PoolManager.allocate, hfind, PacketBufferPool.allocate_buffer,
    hempty]

/-- C8 witness: a registry whose only pool (size class 256 on node 0) was
built with zero units, so its free list is empty. -/
theorem bufferMgmt_c8_witness :
    PoolManager.allocate exhaustedState 256 0 = none :=
  bufferMgmt_c8_exhaustion exhaustedState 256 0
    (PacketBufferPool.mk_pool 256 0 0 64 0) (by decide) (by decide)

/-- Splitting the configuration loop at a list append: the second half
runs only when the first half succeeded. -/
theorem configLoop_append (f : PoolConfig → Int → Option PacketBufferPool)
    (node : Int) (xs ys : List PoolConfig) (m : SizePoolMap) :
    PoolManager.configLoop f node (xs ++ ys) m
      = if (PoolManager.configLoop f node xs m).2 = true
        then PoolManager.configLoop f node ys
          (PoolManager.configLoop f node xs m).1
        else PoolManager.configLoop f node xs m := by
  induction xs generalizing m with
  | nil => simp [PoolManager.configLoop]
  | cons c rest ih =>
      simp only [List.cons_append, PoolManager.configLoop]
      by_cases hc : PoolManager.containsKey m c.buffer_size = true
      · simp [hc, ih]
      · simp only [Bool.not_eq_true] at hc
        cases hf : f c node with
        | none => simp [hc, hf]
        | some p => simp [hc, hf, ih]

/-- C9: if, during one `configure_pools_for_numa_node` (or `add_pool`)
call, the construction of some pool fails (the constructor — abstracted,
since `packet_buffer_pool.cpp` is not in the source tree — returns
nothing), the whole call stops there: none of the remaining configs is
registered, the registry keeps exactly the pools registered before the
failure, and the call returns `false` — a result distinct from the null
buffer that reports runtime exhaustion from `allocate`. -/
theorem bufferMgmt_c9_construction_failure_aborts
    (f : PoolConfig → Int → Option PacketBufferPool) (st : ManagerState)
    (node : Int) (pre : List PoolConfig) (c : PoolConfig)
    (post : List PoolConfig)
    (hpre : (PoolManager.configLoop f node pre
      ((PoolManager.lookupAff st node).getD [])).2 = true)
    (hnew : PoolManager.containsKey
      (PoolManager.configLoop f node pre
        ((PoolManager.lookupAff st node).getD [])).1 c.buffer_size = false)
    (hfail : f c node = none) :
    PoolManager.configure_pools_for_numa_node f st node (pre ++ c :: post)
      = (PoolManager.setAff st node
          (PoolManager.configLoop f node pre
            ((PoolManager.lookupAff st node).getD [])).1,
         false) := by
  have happ := configLoop_append f node pre (c :: post)
    ((PoolManager.lookupAff st node).getD [])
  rw [hpre, if_pos rfl] at happ
  have hstep : PoolManager.configLoop f node (c :: post)
      (PoolManager.configLoop f node pre
        ((PoolManager.lookupAff st node).getD [])).1
      = ((PoolManager.configLoop f node pre
          ((PoolManager.lookupAff st node).getD [])).1, false) := by
    simp [PoolManager.configLoop, hnew, hfail]
  rw [hstep] at happ
  simp [PoolManager.configure_pools_for_numa_node, happ]

/-- C9 witness: a constructor that always fails aborts a two-config call
on the first config, registering nothing and returning `false`. -/
theorem bufferMgmt_c9_witness :
    PoolManager.configure_pools_for_numa_node
      (fun _ _ => none) [] 0
      ([] ++ (⟨128, 1, 64, 0⟩ : PoolConfig) :: [⟨256, 1, 64, 0⟩])
      = (PoolManager.setAff [] 0
          (PoolManager.configLoop (fun _ _ => none) 0 []
            ((PoolManager.lookupAff [] 0).getD [])).1,
         false) :=
  bufferMgmt_c9_construction_failure_aborts (fun _ _ => none) [] 0 []
    ⟨128, 1, 64, 0⟩ [⟨256, 1, 64, 0⟩] (by decide) (by decide) rfl

/-- Membership of a key after a sorted insertion: the inserted key and
every previously present key. -/
theorem containsKey_insertSorted (m : SizePoolMap) (ks : Nat)
    (p : PacketBufferPool) (k : Nat) :
    PoolManager.containsKey (PoolManager.insertSorted m ks p) k
      = ((ks == k) || PoolManager.containsKey m k) := by
  induction m with
  | nil =>
      by_cases hk : ks = k <;>
        simp [PoolManager.insertSorted, PoolManager.containsKey, hk]
  | cons e rest ih =>
      unfold PoolManager.insertSorted
      by_cases hlt : ks < e.1
      · rw [if_pos hlt]
        by_cases hk : ks = k <;> by_cases hek : e.1 = k <;>
          simp [PoolManager.containsKey, hk, hek]
      · rw [if_neg hlt]
        by_cases hek : e.1 = k <;>
          simp [PoolManager.containsKey, hek, ih]

/-- Inserting under a different key does not change a key's lookup. -/
theorem lookupKey_insertSorted_ne (m : SizePoolMap) (ks : Nat)
    (p : PacketBufferPool) (k : Nat) (hne : ks ≠ k) :
    PoolManager.lookupKey (PoolManager.insertSorted m ks p) k
      = PoolManager.lookupKey m k := by
  induction m with
  | nil => simp [PoolManager.insertSorted, PoolManager.lookupKey, hne]
  | cons e rest ih =>
      unfold PoolManager.insertSorted
      by_cases hlt : ks < e.1
      · rw [if_pos hlt]
        simp [PoolManager.lookupKey, hne]
      · rw [if_neg hlt]
        by_cases hek : e.1 = k <;>
          simp [PoolManager.lookupKey, hek, ih]

/-- The configuration loop never replaces an already-registered size
class: the lookup of a key present at the start is untouched. -/
theorem configLoop_preserves_existing
    (f : PoolConfig → Int → Option PacketBufferPool) (node : Int)
    (cfgs : List PoolConfig) (m : SizePoolMap) (k : Nat)
    (h : PoolManager.containsKey m k = true) :
    PoolManager.lookupKey (PoolManager.configLoop f node cfgs m).1 k
      = PoolManager.lookupKey m k := by
  induction cfgs generalizing m with
  | nil => rfl
  | cons c rest ih =>
      unfold PoolManager.configLoop
      by_cases hc : PoolManager.containsKey m c.buffer_size = true
      · rw [if_pos hc]
        exact ih m h
      · rw [if_neg hc]
        cases hf : f c node with
        | none => simp [hf]
        | some p =>
            have hkne : c.buffer_size ≠ k := by
              intro heq
              rw [heq, h] at hc
              exact hc rfl
            simp only [hf]
            rw [ih (PoolManager.insertSorted m c.buffer_size p)
              (by rw [containsKey_insertSorted]; simp [h])]
            exact lookupKey_insertSorted_ne m c.buffer_size p k hkne

/-- Writing a node's map and reading it back. -/
theorem lookupAff_setAff (st : ManagerState) (aff : Int) (m : SizePoolMap) :
    PoolManager.lookupAff (PoolManager.setAff st aff m) aff = some m := by
  induction st with
  | nil => simp [PoolManager.setAff, PoolManager.lookupAff]
  | cons e rest ih =>
      unfold PoolManager.setAff
      by_cases he : e.1 = aff
      · simp [PoolManager.lookupAff, he]
      · simp [PoolManager.lookupAff, he, ih]

/-- C10: when a `configure_pools_for_numa_node` (or `add_pool`) call
contains a config whose `(affinity, size_class)` pair is already
registered, that config is a pure no-op — the whole call behaves exactly
as if the duplicate were absent, so the remaining configs are still
processed — and the previously registered pool object for that size
class is still the registered one after the call. -/
theorem bufferMgmt_c10_duplicate_is_noop
    (f : PoolConfig → Int → Option PacketBufferPool) (st : ManagerState)
    (node : Int) (c : PoolConfig) (rest : List PoolConfig)
    (h : PoolManager.containsKey ((PoolManager.lookupAff st node).getD [])
      c.buffer_size = true) :
    PoolManager.configure_pools_for_numa_node f st node (c :: rest)
      = PoolManager.configure_pools_for_numa_node f st node rest
    ∧ PoolManager.lookupKey
        ((PoolManager.lookupAff
          (PoolManager.configure_pools_for_numa_node f st node rest).1
          node).getD [])
        c.buffer_size
      = PoolManager.lookupKey ((PoolManager.lookupAff st node).getD [])
          c.buffer_size := by
  constructor
  · simp [PoolManager.configure_pools_for_numa_node, PoolManager.configLoop,
      h]
  · have hl := lookupAff_setAff st node
      (PoolManager.configLoop f node rest
        ((PoolManager.lookupAff st node).getD [])).1
    simp [PoolManager.configure_pools_for_numa_node, hl,
      configLoop_preserves_existing f node rest
        ((PoolManager.lookupAff st node).getD []) c.buffer_size h]

/-- C10 witness: re-registering size class 128 on node 0 (with a
different unit count) is skipped, the original one-unit pool stays
registered, and the 512 config later in the call is still processed. -/
theorem bufferMgmt_c10_witness :
    PoolManager.configure_pools_for_numa_node PoolManager.constructOk
        onePoolState 0 [⟨128, 7, 32, 8⟩, ⟨512, 1, 64, 0⟩]
      = PoolManager.configure_pools_for_numa_node PoolManager.constructOk
        onePoolState 0 [⟨512, 1, 64, 0⟩]
    ∧ PoolManager.lookupKey
        ((PoolManager.lookupAff
          (PoolManager.configure_pools_for_numa_node PoolManager.constructOk
            onePoolState 0 [⟨512, 1, 64, 0⟩]).1
          0).getD [])
        (128 : Nat)
      = PoolManager.lookupKey
          ((PoolManager.lookupAff onePoolState 0).getD []) (128 : Nat) := by
  have h := bufferMgmt_c10_duplicate_is_noop PoolManager.constructOk
    onePoolState 0 ⟨128, 7, 32, 8⟩ [⟨512, 1, 64, 0⟩] (by decide)
  exact h

end BufferMgmt
